import Mathlib

/-!
COMP603-2015: three teaching snippets

A shallow embedding of the three source files of the repository:

* `in-class/foo.c`                    : namespace `FooLib`
* `src/memory.c`                      : namespace `Memory`
* `in-class/virtual-vs-non-virtual.cpp` : namespace `Dispatch`

Stateful code is written in explicit state-passing style.  Memory is unbounded:
an allocation (`malloc`, `new`) always succeeds and yields a fresh address.
-/

set_option linter.unusedVariables false

/-! ## in-class/foo.c -/

namespace FooLib

/-- Version 2.0 of the library function (foo.c lines 31-33): `int foo() { return 42; }`.
The function takes no argument; `s` is the whole program state in which it is called,
of an arbitrary type, and is handed back next to the returned value. -/
def foo {σ : Type} (s : σ) : Int × σ :=
  (42, s)

end FooLib

/-! ## src/memory.c -/

namespace Memory

/-- The two functions defined in memory.c. -/
inductive Fn
  | foo
  | main
  deriving DecidableEq, Repr

/-- The local variables declared in memory.c (both in `foo`). -/
inductive Local
  | bar
  | baz
  deriving DecidableEq, Repr

/-- Values held by a local variable: an `int` or a pointer (an address). -/
inductive Val
  | int (i : Int)
  | ptr (a : Nat)
  deriving DecidableEq, Repr

/-- One heap block handed out by `malloc`: its address and its size in bytes.
The content of the block is indeterminate and never read. -/
structure Block where
  addr : Nat
  size : Nat
  deriving DecidableEq, Repr

/-- Observable control events: entering a function (with the value `global` holds
at that point) and returning from it. -/
inductive Event
  | call (f : Fn) (global : Int)
  | ret (f : Fn)
  deriving DecidableEq, Repr

/-- An activation record: the function it belongs to and its declared locals. -/
structure Frame where
  fn : Fn
  locals : List (Local × Val)
  deriving DecidableEq, Repr

/-- The state of the process running memory.c. -/
structure State where
  /-- the variable `int global` of line 4 -/
  global : Int
  /-- the call stack, innermost frame first -/
  stack : List Frame
  /-- the heap blocks that are allocated and not released -/
  live : List Block
  /-- the next fresh heap address -/
  brk : Nat
  /-- everything written to standard output so far -/
  stdout : String
  /-- the control events so far, oldest first -/
  trace : List Event
  deriving DecidableEq, Repr

/-- The size `sizeof(int)` of line 10 (implementation-defined; 4 on the usual ABIs). -/
def sizeof_int : Nat := 4

/-- The state in which `main` is entered: line 4, `int global = 42;`, has been
carried out by static initialisation; nothing is on the stack, on the heap or on
standard output.  Address 0 is the null pointer, so the heap starts at 1. -/
def processStart : State :=
  { global := 42, stack := [], live := [], brk := 1, stdout := "", trace := [] }

/-- Function entry: a fresh frame is pushed and the entry is recorded together
with the value of `global` at that point. -/
def enter (f : Fn) (s : State) : State :=
  { s with stack := { fn := f, locals := [] } :: s.stack,
           trace := s.trace ++ [Event.call f s.global] }

/-- Function exit: the innermost frame, with all its locals, is popped. -/
def leave (f : Fn) (s : State) : State :=
  { s with stack := s.stack.tail, trace := s.trace ++ [Event.ret f] }

/-- Declaration of a local `x` with initial value `v` in the innermost frame. -/
def declLocal (x : Local) (v : Val) (s : State) : State :=
  match s.stack with
  | [] => s
  | fr :: rest => { s with stack := { fr with locals := (x, v) :: fr.locals } :: rest }

/-- The value of local `x` in a frame, if declared there. -/
def Frame.get (fr : Frame) (x : Local) : Option Val :=
  (fr.locals.find? (fun p => p.1 = x)).map Prod.snd

/-- The C library `malloc(size)`, called on line 10 (memory.c declares nothing for it:
only stdio.h is included): a fresh block of `size` bytes becomes live and its address
is returned.  Nothing in memory.c releases a block. -/
def malloc (size : Nat) (s : State) : Nat × State :=
  (s.brk, { s with live := { addr := s.brk, size := size } :: s.live, brk := s.brk + size })

/-- The statements of `foo` (memory.c lines 8-10), run inside the frame of `foo`:
`int bar = 42;` and `int *baz = (int*) malloc(sizeof(int));`. -/
def foo_body (s : State) : State :=
  let s := declLocal Local.bar (Val.int 42) s
  let (p, s) := malloc sizeof_int s
  declLocal Local.baz (Val.ptr p) s

/-- The function `int foo()` of memory.c lines 6-12.  There is no `return` statement:
control reaches the closing brace, so no value is returned (`none`). -/
def foo (s : State) : Option Int × State :=
  (none, leave Fn.foo (foo_body (enter Fn.foo s)))

/-- The function `int main(int argc, char** argv)` of memory.c lines 14-16: the one
statement `foo();`, whose result is discarded.  Reaching the closing brace of
`main` returns 0. -/
def main (argc : Int) (argv : List String) (s : State) : Int × State :=
  let s := enter Fn.main s
  let (_, s) := foo s
  (0, leave Fn.main s)

/-- A whole run of the program: `main` called in the start state. -/
def run (argc : Int) (argv : List String) : Int × State :=
  main argc argv processStart

/-- How often function `f` was entered according to a trace. -/
def callCount (f : Fn) (tr : List Event) : Nat :=
  (tr.filter (fun e => match e with
    | Event.call g _ => decide (g = f)
    | Event.ret _ => false)).length

end Memory

/-! ## in-class/virtual-vs-non-virtual.cpp -/

namespace Dispatch

/-- The two classes of the file: `Animal` (lines 3-6) and `Cow` (lines 7-12). -/
inductive Class
  | Animal
  | Cow
  deriving DecidableEq, Repr

/-- The value of a pointer of type `Animal *`: null or an address in the free store.
An address at which no object lives is a dangling (unbound) handle. -/
inductive Handle
  | null
  | addr (a : Nat)
  deriving DecidableEq, Repr

/-- What can go wrong: instantiating an abstract class (rejected by the compiler),
calling through a handle that refers to no object, calling a pure virtual slot. -/
inductive Fault
  | abstractClass
  | unboundHandle
  | pureVirtualCall
  deriving DecidableEq, Repr

/-- The state of the process running the dispatch program. -/
structure World where
  /-- everything written to `cout` so far -/
  cout : String
  /-- the free store: the object at address `i` has dynamic class `heap[i]` -/
  heap : List Class
  /-- the virtual calls made so far, oldest first: the handle used and the dynamic
  class of the object found behind it -/
  vcalls : List (Handle × Class)
  deriving DecidableEq, Repr

/-- The state in which `main` is entered: no output, no objects, no calls. -/
def processStart : World :=
  { cout := "", heap := [], vcalls := [] }

/-- The stream insertion `cout << str`. -/
def put (str : String) (w : World) : World :=
  { w with cout := w.cout ++ str }

/-- The manipulator `endl`: writes the line terminator (and flushes). -/
def endl (w : World) : World :=
  { w with cout := w.cout ++ "\n" }

/-- The member `Cow::speak` (lines 9-11): `cout << "Moo" << endl;`. -/
def Cow.speak (w : World) : World :=
  endl (put "Moo" w)

/-- The virtual table slot of `speak` per class: `Animal` declares it pure
(`virtual void speak() = 0;`, line 5), `Cow` overrides it (line 9). -/
def vtable : Class → Option (World → World)
  | Class.Animal => none
  | Class.Cow => some Cow.speak

/-- A class is abstract when its `speak` slot is pure virtual. -/
def isAbstract (c : Class) : Bool :=
  (vtable c).isNone

/-- The expression `new C()`: refused for an abstract class; otherwise a fresh
object of dynamic class `C` is placed in the free store and its address returned. -/
def new (c : Class) (w : World) : Except Fault (Handle × World) :=
  if isAbstract c then Except.error Fault.abstractClass
  else Except.ok (Handle.addr w.heap.length, { w with heap := w.heap ++ [c] })

/-- The dynamic class of the object a handle refers to, if it refers to one. -/
def deref (h : Handle) (w : World) : Option Class :=
  match h with
  | Handle.null => none
  | Handle.addr a => w.heap[a]?

/-- The call `h->speak()` through a handle of static type `Animal *`: the object
behind `h` is looked up and the `speak` slot of its dynamic class is run. -/
def Animal.speak (h : Handle) (w : World) : Except Fault World :=
  match deref h w with
  | none => Except.error Fault.unboundHandle
  | some c =>
    match vtable c with
    | none => Except.error Fault.pureVirtualCall
    | some f => Except.ok (f { w with vcalls := w.vcalls ++ [(h, c)] })

/-- The function `int main(int argc, char ** argv)` of lines 13-17.  Line 15,
`Animal * sally;`, declares a pointer without initialising it: `sally` stands for
the indeterminate value it holds.  Reaching the closing brace of `main` returns 0. -/
def main (argc : Int) (argv : List String) (sally : Handle) (w : World) :
    Except Fault (Int × World) := do
  let (bessie, w) ← new Class.Cow w
  let w ← Animal.speak bessie w
  pure (0, w)

/-- The worlds the program text can produce: starting from the start state, by
`new` expressions and by calls of `speak` through a handle. -/
inductive Reachable : World → Prop
  | start : Reachable processStart
  | construct {w w1 : World} {c : Class} {h : Handle} :
      Reachable w → new c w = Except.ok (h, w1) → Reachable w1
  | invoke {w w1 : World} {h : Handle} :
      Reachable w → Animal.speak h w = Except.ok w1 → Reachable w1

end Dispatch

/-! ## Auxiliary lemmas -/

namespace Memory

theorem foo_state (s : State) :
    (foo s).2 =
      { s with live := { addr := s.brk, size := sizeof_int } :: s.live,
               brk := s.brk + sizeof_int,
               trace := s.trace ++ [Event.call Fn.foo s.global] ++ [Event.ret Fn.foo] } := by
  simp [foo, foo_body, leave, enter, declLocal, malloc]

theorem main_state (argc : Int) (argv : List String) (s : State) :
    (main argc argv s).2 =
      { s with live := { addr := s.brk, size := sizeof_int } :: s.live,
               brk := s.brk + sizeof_int,
               trace := s.trace ++ [Event.call Fn.main s.global, Event.call Fn.foo s.global,
                                    Event.ret Fn.foo, Event.ret Fn.main] } := by
  simp [main, foo, foo_body, leave, enter, declLocal, malloc]

theorem run_trace (argc : Int) (argv : List String) :
    (run argc argv).2.trace =
      [Event.call Fn.main 42, Event.call Fn.foo 42, Event.ret Fn.foo, Event.ret Fn.main] := by
  simp [run, main_state, processStart]

end Memory

namespace Dispatch

theorem moo_line (str : String) : str ++ "Moo" ++ "\n" = str ++ "Moo\n" := by
  rw [String.append_assoc]
  rfl

theorem new_cow (w : World) :
    new Class.Cow w = Except.ok (Handle.addr w.heap.length, { w with heap := w.heap ++ [Class.Cow] }) := by
  simp [new, isAbstract, vtable]

theorem deref_new_cow (w : World) :
    deref (Handle.addr w.heap.length) { w with heap := w.heap ++ [Class.Cow] } = some Class.Cow := by
  simp [deref]

theorem speak_of_cow (h : Handle) (w : World) (hb : deref h w = some Class.Cow) :
    Animal.speak h w = Except.ok (Cow.speak { w with vcalls := w.vcalls ++ [(h, Class.Cow)] }) := by
  simp [Animal.speak, hb, vtable]

theorem main_eq (argc : Int) (argv : List String) (sally : Handle) (w : World) :
    main argc argv sally w =
      Except.ok (0, { cout := w.cout ++ "Moo\n", heap := w.heap ++ [Class.Cow],
                      vcalls := w.vcalls ++ [(Handle.addr w.heap.length, Class.Cow)] }) := by
  have h := speak_of_cow _ _ (deref_new_cow w)
  simp only [main, new_cow, bind, Except.bind, h, pure, Except.pure]
  simp [Cow.speak, endl, put, moo_line]

theorem heap_of_reachable {w : World} (hw : Reachable w) : ∀ c ∈ w.heap, c = Class.Cow := by
  induction hw with
  | start => simp [processStart]
  | @construct w w1 c h _ hnew ih =>
    cases c with
    | Animal => simp [new, isAbstract, vtable] at hnew
    | Cow =>
      rw [new_cow] at hnew
      injection hnew with hnew
      injection hnew with _ hw1
      subst hw1
      intro c hc
      simp at hc
      rcases hc with hc | hc
      · exact ih c hc
      · exact hc
  | @invoke w w1 h _ hsp ih =>
    unfold Animal.speak at hsp
    cases hd : deref h w with
    | none => simp [hd] at hsp
    | some c =>
      cases c with
      | Animal => simp [hd, vtable] at hsp
      | Cow =>
        simp [hd, vtable, Cow.speak, endl, put] at hsp
        subst hsp
        exact ih

theorem mem_heap_of_deref {h : Handle} {w : World} {c : Class} (hb : deref h w = some c) :
    c ∈ w.heap := by
  cases h with
  | null => simp [deref] at hb
  | addr a =>
    simp only [deref] at hb
    exact List.getElem?_mem hb

end Dispatch

/-! ## The dispatch program -/

/-- C1: for every handle that `new Cow()` bound to a newly constructed Cow, the call
`speak()` through that handle of static type `Animal *` succeeds, resolves to class
Cow, appends exactly "Moo" and a line terminator to standard output, and leaves the
same standard output as `Cow::speak` called directly on the object. -/
theorem speak_through_animal_handle_moos (w w1 : Dispatch.World) (h : Dispatch.Handle)
    (hnew : Dispatch.new Dispatch.Class.Cow w = Except.ok (h, w1)) :
    ∃ w2, Dispatch.Animal.speak h w1 = Except.ok w2 ∧
      w2.cout = w1.cout ++ "Moo\n" ∧
      w2.cout = (Dispatch.Cow.speak w1).cout ∧
      w2.vcalls = w1.vcalls ++ [(h, Dispatch.Class.Cow)] ∧
      w2.heap = w1.heap := by
  rw [Dispatch.new_cow] at hnew
  injection hnew with hnew
  injection hnew with hh hw1
  subst hh
  subst hw1
  refine ⟨_, Dispatch.speak_of_cow _ _ (Dispatch.deref_new_cow w), ?_, ?_, ?_, ?_⟩ <;>
    simp [Dispatch.Cow.speak, Dispatch.endl, Dispatch.put, Dispatch.moo_line]

/-- Witness of C1: the handle bound by `new Cow()` in the start state. -/
theorem speak_through_animal_handle_moos_witness :
    Dispatch.new Dispatch.Class.Cow Dispatch.processStart
        = Except.ok (Dispatch.Handle.addr 0, { cout := "", heap := [Dispatch.Class.Cow], vcalls := [] }) ∧
      ∃ w2, Dispatch.Animal.speak (Dispatch.Handle.addr 0)
              { cout := "", heap := [Dispatch.Class.Cow], vcalls := [] } = Except.ok w2 ∧
        w2.cout = "" ++ "Moo\n" ∧
        w2.cout = (Dispatch.Cow.speak { cout := "", heap := [Dispatch.Class.Cow], vcalls := [] }).cout ∧
        w2.vcalls = [] ++ [(Dispatch.Handle.addr 0, Dispatch.Class.Cow)] ∧
        w2.heap = [Dispatch.Class.Cow] :=
  ⟨rfl, speak_through_animal_handle_moos Dispatch.processStart
          { cout := "", heap := [Dispatch.Class.Cow], vcalls := [] } (Dispatch.Handle.addr 0) rfl⟩

/-- C2: a complete run of `main` of the dispatch program that starts with empty
standard output ends with standard output exactly "Moo" and a newline and with exit
code 0; `speak()` was invoked exactly once. -/
theorem dispatch_main_prints_one_moo (argc : Int) (argv : List String)
    (sally : Dispatch.Handle) (w : Dispatch.World) (hout : w.cout = "") :
    ∃ w2, Dispatch.main argc argv sally w = Except.ok (0, w2) ∧
      w2.cout = "Moo\n" ∧ w2.vcalls.length = w.vcalls.length + 1 := by
  refine ⟨_, Dispatch.main_eq argc argv sally w, ?_, ?_⟩
  · simp only [hout]
    rfl
  · simp

/-- Witness of C2: the run from the start state, with `sally` holding null. -/
theorem dispatch_main_prints_one_moo_witness :
    Dispatch.processStart.cout = "" ∧
      ∃ w2, Dispatch.main 1 ["a.out"] Dispatch.Handle.null Dispatch.processStart = Except.ok (0, w2) ∧
        w2.cout = "Moo\n" ∧ w2.vcalls.length = Dispatch.processStart.vcalls.length + 1 :=
  ⟨rfl, dispatch_main_prints_one_moo 1 ["a.out"] Dispatch.Handle.null Dispatch.processStart rfl⟩

/-- C5: in every execution of the dispatch program (any arguments, any start world,
any indeterminate value of `sally`) no call goes through an unbound handle: `main`
ends without fault, its only virtual call goes through `bessie`, which `new Cow()`
bound to a Cow before the call, and the outcome does not depend on the value of
`sally`, which is never dereferenced or invoked. -/
theorem dispatch_main_calls_only_bound_handle (argc : Int) (argv : List String)
    (sally : Dispatch.Handle) (w : Dispatch.World) :
    ∃ bessie w1 w2,
      Dispatch.new Dispatch.Class.Cow w = Except.ok (bessie, w1) ∧
      Dispatch.deref bessie w1 = some Dispatch.Class.Cow ∧
      Dispatch.main argc argv sally w = Except.ok (0, w2) ∧
      w2.vcalls = w.vcalls ++ [(bessie, Dispatch.Class.Cow)] ∧
      ∀ sally2, Dispatch.main argc argv sally2 w = Dispatch.main argc argv sally w :=
  ⟨_, _, _, Dispatch.new_cow w, Dispatch.deref_new_cow w, Dispatch.main_eq argc argv sally w,
    rfl, fun _ => rfl⟩

/-- C8: class Animal has no behaviour of its own (its `speak` slot is pure virtual)
and cannot be constructed; every successful `new` constructs a Cow; hence in every
reachable world each bound Animal handle refers to a Cow, and `speak()` through it
is `Cow::speak`. -/
theorem animal_is_abstract_handles_are_cows (w : Dispatch.World) (hw : Dispatch.Reachable w)
    (h : Dispatch.Handle) (c : Dispatch.Class) (hb : Dispatch.deref h w = some c) :
    Dispatch.vtable Dispatch.Class.Animal = none ∧
    (∀ w0, Dispatch.new Dispatch.Class.Animal w0 = Except.error Dispatch.Fault.abstractClass) ∧
    (∀ c0 w0 h0 w1, Dispatch.new c0 w0 = Except.ok (h0, w1) → c0 = Dispatch.Class.Cow) ∧
    c = Dispatch.Class.Cow ∧
    Dispatch.Animal.speak h w
      = Except.ok (Dispatch.Cow.speak { w with vcalls := w.vcalls ++ [(h, Dispatch.Class.Cow)] }) := by
  have hc : c = Dispatch.Class.Cow :=
    Dispatch.heap_of_reachable hw c (Dispatch.mem_heap_of_deref hb)
  subst hc
  refine ⟨rfl, fun _ => rfl, ?_, rfl, Dispatch.speak_of_cow h w hb⟩
  intro c0 w0 h0 w1 hnew
  cases c0 with
  | Animal => simp [Dispatch.new, Dispatch.isAbstract, Dispatch.vtable] at hnew
  | Cow => rfl

/-- Witness of C8: the world after one `new Cow()` is reachable and its handle at
address 0 is bound. -/
theorem animal_is_abstract_handles_are_cows_witness :
    Dispatch.Reachable { cout := "", heap := [Dispatch.Class.Cow], vcalls := [] } ∧
    Dispatch.deref (Dispatch.Handle.addr 0) { cout := "", heap := [Dispatch.Class.Cow], vcalls := [] }
      = some Dispatch.Class.Cow ∧
    Dispatch.Animal.speak (Dispatch.Handle.addr 0) { cout := "", heap := [Dispatch.Class.Cow], vcalls := [] }
      = Except.ok { cout := "Moo\n", heap := [Dispatch.Class.Cow],
                    vcalls := [(Dispatch.Handle.addr 0, Dispatch.Class.Cow)] } :=
  have hr : Dispatch.Reachable { cout := "", heap := [Dispatch.Class.Cow], vcalls := [] } :=
    @Dispatch.Reachable.construct Dispatch.processStart _ Dispatch.Class.Cow
      (Dispatch.Handle.addr 0) Dispatch.Reachable.start rfl
  ⟨hr, rfl,
    (animal_is_abstract_handles_are_cows _ hr (Dispatch.Handle.addr 0) Dispatch.Class.Cow rfl).2.2.2.2⟩

/-! ## The allocation program -/

/-- C3: running the allocation program, for any arguments, enters `foo` exactly
once, writes nothing to standard output and ends with exit code 0; from any other
state too, `main` returns 0, leaves standard output as it was and enters `foo`
exactly once more. -/
theorem memory_run_is_silent_and_exits_zero (argc : Int) (argv : List String) :
    (Memory.run argc argv).1 = 0 ∧
    (Memory.run argc argv).2.stdout = "" ∧
    Memory.callCount Memory.Fn.foo (Memory.run argc argv).2.trace = 1 ∧
    ∀ s : Memory.State,
      (Memory.main argc argv s).1 = 0 ∧
      (Memory.main argc argv s).2.stdout = s.stdout ∧
      Memory.callCount Memory.Fn.foo (Memory.main argc argv s).2.trace
        = Memory.callCount Memory.Fn.foo s.trace + 1 := by
  refine ⟨rfl, rfl, ?_, fun s => ⟨rfl, rfl, ?_⟩⟩
  · rw [Memory.run_trace]
    rfl
  · rw [Memory.main_state]
    simp [Memory.callCount]

/-- C4 fails on the code: called in the start state, where no heap cell is live,
`foo` returns with the cell it acquired (address 1, 4 bytes) still live, so the set
of live allocations after the call differs from the set before it. -/
theorem foo_live_set_counterexample :
    Memory.processStart.live = [] ∧
    (Memory.foo Memory.processStart).2.live = [{ addr := 1, size := 4 }] ∧
    (Memory.foo Memory.processStart).2.live ≠ Memory.processStart.live ∧
    ¬ (∀ b : Memory.Block, b ∈ (Memory.foo Memory.processStart).2.live ↔ b ∈ Memory.processStart.live) := by
  refine ⟨rfl, rfl, by decide, ?_⟩
  intro hall
  have h1 : ({ addr := 1, size := 4 } : Memory.Block) ∈ Memory.processStart.live :=
    (hall { addr := 1, size := 4 }).1 (by decide)
  simp [Memory.processStart] at h1

/-- C4 as amended: when `foo` returns, the heap cell it acquired with malloc has not
been released: the live allocations after the call are the live allocations before
the call plus that one cell, whose address was held by the local `baz` until the
frame of `foo` was popped; every cell live before the call is still live, so no cell
is released at all, and none twice. -/
theorem foo_keeps_acquired_cell_live (s : Memory.State) :
    (Memory.malloc Memory.sizeof_int s).1 = s.brk ∧
    (Memory.foo s).2.live = { addr := s.brk, size := Memory.sizeof_int } :: s.live ∧
    ((Memory.foo_body (Memory.enter Memory.Fn.foo s)).stack.head?.bind
        (fun fr => fr.get Memory.Local.baz)) = some (Memory.Val.ptr s.brk) ∧
    (Memory.foo s).2.stack = s.stack ∧
    ∀ b ∈ s.live, b ∈ (Memory.foo s).2.live := by
  refine ⟨rfl, ?_, ?_, ?_, ?_⟩
  · rw [Memory.foo_state]
  · simp [Memory.foo_body, Memory.enter, Memory.declLocal, Memory.malloc, Memory.Frame.get]
  · rw [Memory.foo_state]
  · intro b hb
    rw [Memory.foo_state]
    exact List.mem_cons_of_mem _ hb

/-- C6: the variable `global` holds 42 in the start state, and in every run of the
allocation program it holds 42 at each function entry: the entries are exactly that
of `main` and then that of `foo`, both observing 42. -/
theorem global_is_42_at_every_entry (argc : Int) (argv : List String) :
    Memory.processStart.global = 42 ∧
    (Memory.run argc argv).2.trace =
      [Memory.Event.call Memory.Fn.main 42, Memory.Event.call Memory.Fn.foo 42,
       Memory.Event.ret Memory.Fn.foo, Memory.Event.ret Memory.Fn.main] ∧
    ∀ f g, Memory.Event.call f g ∈ (Memory.run argc argv).2.trace → g = 42 := by
  refine ⟨rfl, Memory.run_trace argc argv, ?_⟩
  intro f g hmem
  rw [Memory.run_trace] at hmem
  simp at hmem
  rcases hmem with ⟨_, hg⟩ | ⟨_, hg⟩ <;> exact hg

/-- C10: `foo` never writes `global`: in every state the value of `global` after the
call is its value before the call, and it is still 42 when `main` of the allocation
program finishes; the local `bar` holds 42 inside `foo`, and after the call the
stack is the stack of the caller again, so `bar` is no longer observable. -/
theorem foo_preserves_global (s : Memory.State) (argc : Int) (argv : List String) :
    (Memory.foo s).2.global = s.global ∧
    (Memory.main argc argv s).2.global = s.global ∧
    (Memory.run argc argv).2.global = 42 ∧
    ((Memory.foo_body (Memory.enter Memory.Fn.foo s)).stack.head?.bind
        (fun fr => fr.get Memory.Local.bar)) = some (Memory.Val.int 42) ∧
    (Memory.foo s).2.stack = s.stack ∧
    (Memory.run argc argv).2.stack = [] := by
  refine ⟨?_, ?_, rfl, ?_, ?_, rfl⟩
  · rw [Memory.foo_state]
  · rw [Memory.main_state]
  · simp [Memory.foo_body, Memory.enter, Memory.declLocal, Memory.malloc, Memory.Frame.get]
  · rw [Memory.foo_state]

/-! ## Both entry points -/

/-- C7: the entry points ignore their arguments: for any two argument vectors, `main`
of the dispatch program gives the same outcome (standard output and exit code
included), whatever `sally` holds, and `main` of the allocation program gives the
same exit code and the same final state (standard output and `global` included). -/
theorem mains_ignore_their_arguments (argc argc2 : Int) (argv argv2 : List String)
    (sally sally2 : Dispatch.Handle) (w : Dispatch.World) (s : Memory.State) :
    Dispatch.main argc argv sally w = Dispatch.main argc2 argv2 sally2 w ∧
    (Dispatch.main argc argv sally w).map (fun r => (r.1, r.2.cout))
      = Except.ok (0, w.cout ++ "Moo\n") ∧
    Memory.main argc argv s = Memory.main argc2 argv2 s ∧
    (Memory.main argc argv s).1 = (Memory.main argc2 argv2 s).1 ∧
    (Memory.main argc argv s).2.stdout = (Memory.main argc2 argv2 s).2.stdout ∧
    (Memory.main argc argv s).2.global = (Memory.main argc2 argv2 s).2.global ∧
    Memory.run argc argv = Memory.run argc2 argv2 := by
  refine ⟨rfl, ?_, rfl, rfl, rfl, rfl, rfl⟩
  rw [Dispatch.main_eq]
  rfl

/-! ## The library function -/

/-- C9: `foo` of foo.c is the Version 2.0 definition: every call returns 42, never
the Version 1.0 value 0, leaves the state it is called in untouched, and any two
calls return the same value. -/
theorem foolib_foo_returns_42 {σ : Type} (s t : σ) :
    (FooLib.foo s).1 = 42 ∧
    (FooLib.foo s).1 ≠ 0 ∧
    (FooLib.foo s).2 = s ∧
    (FooLib.foo s).1 = (FooLib.foo t).1 ∧
    (FooLib.foo (FooLib.foo s).2).1 = (FooLib.foo s).1 := by
  refine ⟨rfl, ?_, rfl, rfl, rfl⟩
  simp [FooLib.foo]
